import Mathlib

/-!
Verification of the response-mapping engine and Player entity of the
ESPN-Fantasy-Football-API repository, as a shallow embedding in Lean 4.

The single source file under verification is `src/player/player.js`.
The mapping engine itself (the base classes), the constant lookup tables and
the stat-computation collaborator live outside the vendored source tree; they
are modelled from the specification and marked `Modelled from the spec:` in
their doc comments.  JavaScript numbers are modelled as integers (all numeric
values the claims touch are integral); `NaN` gets its own constructor.
-/

set_option autoImplicit false

/-- A JSON-ish JavaScript runtime value.  `undef` is JavaScript `undefined`,
`nan` the number `NaN`.  `Date` objects are modelled as a tagged wrapper
holding the constructor argument (`date v` stands for `new Date(v)`). -/
inductive JSVal : Type where
  | undef : JSVal
  | null : JSVal
  | bool : Bool → JSVal
  | num : Int → JSVal
  | nan : JSVal
  | str : String → JSVal
  | arr : List JSVal → JSVal
  | obj : List (String × JSVal) → JSVal
  | date : JSVal → JSVal
deriving Repr

mutual

/-- Decidable equality of values (the nested inductive blocks deriving). -/
def decEqV : (a b : JSVal) → Decidable (a = b)
  | .undef, .undef => .isTrue rfl
  | .null, .null => .isTrue rfl
  | .nan, .nan => .isTrue rfl
  | .bool a, .bool b =>
    if h : a = b then .isTrue (h ▸ rfl) else .isFalse (fun e => h (JSVal.bool.inj e))
  | .num a, .num b =>
    if h : a = b then .isTrue (h ▸ rfl) else .isFalse (fun e => h (JSVal.num.inj e))
  | .str a, .str b =>
    if h : a = b then .isTrue (h ▸ rfl) else .isFalse (fun e => h (JSVal.str.inj e))
  | .arr a, .arr b =>
    match decEqLV a b with
    | .isTrue h => .isTrue (h ▸ rfl)
    | .isFalse h => .isFalse (fun e => h (JSVal.arr.inj e))
  | .obj a, .obj b =>
    match decEqLO a b with
    | .isTrue h => .isTrue (h ▸ rfl)
    | .isFalse h => .isFalse (fun e => h (JSVal.obj.inj e))
  | .date a, .date b =>
    match decEqV a b with
    | .isTrue h => .isTrue (h ▸ rfl)
    | .isFalse h => .isFalse (fun e => h (JSVal.date.inj e))
  | .undef, .null | .undef, .nan | .undef, .bool _ | .undef, .num _ | .undef, .str _
  | .undef, .arr _ | .undef, .obj _ | .undef, .date _
  | .null, .undef | .null, .nan | .null, .bool _ | .null, .num _ | .null, .str _
  | .null, .arr _ | .null, .obj _ | .null, .date _
  | .nan, .undef | .nan, .null | .nan, .bool _ | .nan, .num _ | .nan, .str _
  | .nan, .arr _ | .nan, .obj _ | .nan, .date _
  | .bool _, .undef | .bool _, .null | .bool _, .nan | .bool _, .num _ | .bool _, .str _
  | .bool _, .arr _ | .bool _, .obj _ | .bool _, .date _
  | .num _, .undef | .num _, .null | .num _, .nan | .num _, .bool _ | .num _, .str _
  | .num _, .arr _ | .num _, .obj _ | .num _, .date _
  | .str _, .undef | .str _, .null | .str _, .nan | .str _, .bool _ | .str _, .num _
  | .str _, .arr _ | .str _, .obj _ | .str _, .date _
  | .arr _, .undef | .arr _, .null | .arr _, .nan | .arr _, .bool _ | .arr _, .num _
  | .arr _, .str _ | .arr _, .obj _ | .arr _, .date _
  | .obj _, .undef | .obj _, .null | .obj _, .nan | .obj _, .bool _ | .obj _, .num _
  | .obj _, .str _ | .obj _, .arr _ | .obj _, .date _
  | .date _, .undef | .date _, .null | .date _, .nan | .date _, .bool _ | .date _, .num _
  | .date _, .str _ | .date _, .arr _ | .date _, .obj _ => .isFalse (fun e => nomatch e)
termination_by a _ => sizeOf a

/-- Decidable equality of value lists. -/
def decEqLV : (a b : List JSVal) → Decidable (a = b)
  | [], [] => .isTrue rfl
  | [], _ :: _ => .isFalse (fun e => nomatch e)
  | _ :: _, [] => .isFalse (fun e => nomatch e)
  | x :: xs, y :: ys =>
    match decEqV x y with
    | .isFalse h => .isFalse (fun e => h (List.cons.inj e).1)
    | .isTrue h1 =>
      match decEqLV xs ys with
      | .isTrue h2 => .isTrue (h1 ▸ h2 ▸ rfl)
      | .isFalse h2 => .isFalse (fun e => h2 (List.cons.inj e).2)
termination_by a _ => sizeOf a

/-- Decidable equality of field lists. -/
def decEqLO : (a b : List (String × JSVal)) → Decidable (a = b)
  | [], [] => .isTrue rfl
  | [], _ :: _ => .isFalse (fun e => nomatch e)
  | _ :: _, [] => .isFalse (fun e => nomatch e)
  | (k1, v1) :: xs, (k2, v2) :: ys =>
    if hk : k1 = k2 then
      match decEqV v1 v2 with
      | .isFalse h => .isFalse (fun e => h (Prod.mk.inj (List.cons.inj e).1).2)
      | .isTrue h1 =>
        match decEqLO xs ys with
        | .isTrue h2 => .isTrue (hk ▸ h1 ▸ h2 ▸ rfl)
        | .isFalse h2 => .isFalse (fun e => h2 (List.cons.inj e).2)
    else .isFalse (fun e => hk (Prod.mk.inj (List.cons.inj e).1).1)
termination_by a _ => sizeOf a

end

instance : DecidableEq JSVal := decEqV

/-- A JavaScript object: an ordered association list of fields.  JavaScript
objects cannot hold duplicate keys; where a proof needs that, it is taken as
an explicit `Nodup` hypothesis. -/
abbrev JSObj : Type := List (String × JSVal)

/-- Reading property `k` of an object: JavaScript yields `undefined` for a
missing property. -/
def getField : JSObj → String → JSVal
  | [], _ => JSVal.undef
  | kv :: t, k => if kv.1 = k then kv.2 else getField t k

/-- Whether the object has an own property `k` (`k in o`). -/
def hasField : JSObj → String → Bool
  | [], _ => false
  | kv :: t, k => if kv.1 = k then true else hasField t k

/-- Writing property `k`: update in place when present, append otherwise
(JavaScript preserves insertion order of keys). -/
def setField : JSObj → String → JSVal → JSObj
  | [], k, v => [(k, v)]
  | kv :: t, k, v => if kv.1 = k then (k, v) :: t else kv :: setField t k v

/-- JavaScript truthiness of a value. -/
def truthy : JSVal → Bool
  | .undef => false
  | .null => false
  | .bool b => b
  | .num n => n != 0
  | .nan => false
  | .str s => s != ""
  | .arr _ => true
  | .obj _ => true
  | .date _ => true

/-- A value is non-nullish when it is neither `undefined` nor `null`. -/
def nonNullish : JSVal → Bool
  | .undef => false
  | .null => false
  | _ => true

/-- Whether a value is exactly `undefined`. -/
def isUndef : JSVal → Bool
  | .undef => true
  | _ => false

/-- The string key JavaScript (and lodash property paths) coerce a value to.
The `arr`/`obj`/`date` rows are approximations (their exact coercions are
irrelevant here: the lookup tables only carry decimal-digit keys). -/
def pathToKey : JSVal → String
  | .undef => "undefined"
  | .null => "null"
  | .bool b => if b then "true" else "false"
  | .num n => toString n
  | .nan => "NaN"
  | .str s => s
  | .arr _ => ""
  | .obj _ => "[object Object]"
  | .date _ => "[date]"

/-- `_.get(object, path)`: property read after path coercion; `undefined`
when the property is missing (no lodash default argument is used in the
source). -/
def lodashGet (table : JSObj) (path : JSVal) : JSVal :=
  getField table (pathToKey path)

/-- `_.map(collection, iteratee)`: maps arrays elementwise, maps an object's
values, and yields `[]` on nil or non-collection input. -/
def lodashMap (coll : JSVal) (f : JSVal → JSVal) : JSVal :=
  match coll with
  | .arr l => .arr (l.map f)
  | .obj fields => .arr (fields.map (fun kv => f kv.2))
  | _ => .arr []

/-- The numeric value of a decimal digit character. -/
def charDigit? (c : Char) : Option Nat :=
  if c.isDigit then some (c.toNat - '0'.toNat) else none

/-- Accumulate the value of a digit run; `none` on any non-digit. -/
def digitsValAux : List Char → Nat → Option Nat
  | [], acc => some acc
  | c :: t, acc =>
    match charDigit? c with
    | some d => digitsValAux t (acc * 10 + d)
    | none => none

/-- Parse an optionally negated decimal integer literal. -/
def strToInt? (s : String) : Option Int :=
  match s.data with
  | [] => none
  | '-' :: t => if t.isEmpty then none else (digitsValAux t 0).map (fun n => -(n : Int))
  | l => (digitsValAux l 0).map (fun n => (n : Int))

/-- `_.toNumber(value)` restricted to the integer-valued world of this model;
strings parse as decimal integers, the unparsable cases go to `NaN`. -/
def lodashToNumber : JSVal → JSVal
  | .num n => .num n
  | .bool true => .num 1
  | .bool false => .num 0
  | .null => .num 0
  | .nan => .nan
  | .undef => .nan
  | .str s =>
    match strToInt? s with
    | some n => .num n
    | none => if s = "" then .num 0 else .nan
  | .arr _ => .nan
  | .obj _ => .nan
  | .date _ => .nan

/-- Modelled from the spec: `nflTeamIdToNFLTeam` lives in `../constants.js`,
outside the vendored source.  The spec treats these code-to-label tables as
opaque external vocabulary; representative entries follow the spec's own
scenario (`TEAM_TABLE = {3: 'Example Team'}`). -/
def nflTeamIdToNFLTeam : JSObj :=
  [("3", JSVal.str "Example Team")]

/-- Modelled from the spec: `nflTeamIdToNFLTeamAbbreviation` from
`../constants.js`, outside the vendored source; representative entry. -/
def nflTeamIdToNFLTeamAbbreviation : JSObj :=
  [("3", JSVal.str "EX")]

/-- Modelled from the spec: `slotCategoryIdToPositionMap` from
`../constants.js`, outside the vendored source; representative entries. -/
def slotCategoryIdToPositionMap : JSObj :=
  [("0", JSVal.str "QB"), ("2", JSVal.str "RB"), ("4", JSVal.str "WR"), ("6", JSVal.str "TE")]

/-- One entry of a response map: either a bare source-field rename or a
structured spec with optional source key, transform and default (spec §3).
A transform receives `(rawValueAtKey, mappedResultSoFar, rawDocument,
constructorParams)`. -/
inductive FieldSpec : Type where
  | direct (sourceKey : String) : FieldSpec
  | spec (key : Option String) (manualParse : Option (JSVal → JSObj → JSObj → JSObj → JSVal))
      (defaultValue : Option JSVal) : FieldSpec

/-- `undefined` means "omit this field" (spec §4.1 step 3); any other value
is kept. -/
def optionOfNonUndef : JSVal → Option JSVal
  | .undef => none
  | v => some v

/-- Modelled from the spec (§4.1 Field Resolver): the mapping engine lives in
the base classes outside the vendored source.  `none` is "absent": a plain
name missing from the document, a transform returning `undefined`, or a
missing source key with no declared default. -/
def resolveField (targetName : String) (fs : FieldSpec) (doc partResult cParams : JSObj) :
    Option JSVal :=
  match fs with
  | .direct k => if hasField doc k then some (getField doc k) else none
  | .spec key mp dv =>
    let sourceKey := key.getD targetName
    let rawValue := getField doc sourceKey
    match mp with
    | some f => optionOfNonUndef (f rawValue partResult doc cParams)
    | none => if hasField doc sourceKey then some rawValue else dv

/-- Modelled from the spec (§4.2 Schema Mapper, steps 2-4): fold the response
map in declared order, feeding each resolver the current partial result and
skipping absent fields. -/
def mapFields (entries : List (String × FieldSpec)) (doc cParams acc : JSObj) : JSObj :=
  match entries with
  | [] => acc
  | (name, fs) :: rest =>
    match resolveField name fs doc acc cParams with
    | some v => mapFields rest doc cParams (setField acc name v)
    | none => mapFields rest doc cParams acc

/-- The immediate fields of every object-valued top-level entry, in document
order. -/
def childFields (doc : JSObj) : JSObj :=
  doc.foldr (fun kv acc => match kv.2 with | .obj fields => fields ++ acc | _ => acc) []

/-- Modelled from the spec (§4.2 step 1): flatten mode merges one level of
nested containers into a working copy so their fields are addressable at top
level; the merge is shallow and does not recurse into grandchildren.  The
spec leaves name conflicts unspecified; here existing top-level fields take
precedence (first match wins in `getField`). -/
def flattenDoc (doc : JSObj) : JSObj :=
  doc ++ childFields doc

/-- Modelled from the spec (§4.2): the full Schema Mapper. -/
def mapResponse (rm : List (String × FieldSpec)) (doc cParams : JSObj) (flatten : Bool) :
    JSObj :=
  mapFields rm (if flatten then flattenDoc doc else doc) cParams []

/-! ## The Player entity (src/player/player.js) -/

/-- `static displayName = 'Player'` (player.js:28). -/
def Player.displayName : String := "Player"

/-- `static flattenResponse = true` (player.js:30). -/
def Player.flattenResponse : Bool := true

/-- `Player.getIDParams` (player.js:38-48): JavaScript `&&` tests
truthiness of `params.id`, `params.seasonId`, `params.scoringPeriodId`; on
success the returned object lists the three parameters in declared order. -/
def Player.getIDParams (params : JSObj) : Option JSObj :=
  if truthy (getField params "id") && truthy (getField params "seasonId")
      && truthy (getField params "scoringPeriodId") then
    some [("id", getField params "id"), ("seasonId", getField params "seasonId"),
      ("scoringPeriodId", getField params "scoringPeriodId")]
  else
    none

/-- `this` inside the static `responseMap` initializer (player.js:114) is the
`Player` class object itself; the class has no own `seasonId` property (the
constructor assigns instances), so `this.seasonId` reads `undefined`. -/
def Player.staticSeasonId : JSVal := JSVal.undef

/-- `this.scoringPeriodId` at player.js:114, read off the `Player` class
object at schema-definition time: `undefined`. -/
def Player.staticScoringPeriodId : JSVal := JSVal.undef

/-- The argument object the source builds for `parsePlayerStats`
(player.js:110-120). -/
structure PlayerStatsArgs : Type where
  responseData : JSVal
  constructorParams : JSObj
  usesPoints : Bool
  scoringPeriodId : JSVal
  seasonId : JSVal
  statKey : String
  statSourceId : Int
  statSplitTypeId : Int

/-- The call arguments of `parsePlayerStats` as assembled by the
`totalPoints` transform (player.js:110-120): the raw stat payload and the
per-call `constructorParams` are threaded through, while the explicit
`scoringPeriodId`/`seasonId` entries read `this.scoringPeriodId` /
`this.seasonId` off the class object. -/
def Player.totalPointsCallArgs (responseData : JSVal) (data rawData cParams : JSObj) :
    PlayerStatsArgs :=
  { responseData := responseData
    constructorParams := cParams
    usesPoints := true
    scoringPeriodId := Player.staticScoringPeriodId
    seasonId := Player.staticSeasonId
    statKey := "appliedTotal"
    statSourceId := 0
    statSplitTypeId := 1 }

/-- Modelled from the spec: `parsePlayerStats` (the derived-stat computation
collaborator in `../player-stats/player-stats`) is outside the vendored
source and explicitly out of scope (§1, §6); it is modelled as an opaque
deterministic function of its argument record, here an injective tagging of
the inputs, so no theorem can depend on its internal algorithm. -/
def parsePlayerStats (a : PlayerStatsArgs) : JSVal :=
  JSVal.obj [("statKey", JSVal.str a.statKey), ("responseData", a.responseData),
    ("seasonId", a.seasonId), ("scoringPeriodId", a.scoringPeriodId),
    ("constructorParams", JSVal.obj a.constructorParams)]

/-- The `jerseyNumber` transform (player.js:94):
`responseData ? _.toNumber(responseData) : undefined`. -/
def Player.jerseyNumberParse (responseData : JSVal) : JSVal :=
  if truthy responseData then lodashToNumber responseData else JSVal.undef

/-- The `proTeam` transform (player.js:98):
`_.get(nflTeamIdToNFLTeam, responseData)`. -/
def Player.proTeamParse (responseData : JSVal) : JSVal :=
  lodashGet nflTeamIdToNFLTeam responseData

/-- The `proTeamAbbreviation` transform (player.js:102). -/
def Player.proTeamAbbreviationParse (responseData : JSVal) : JSVal :=
  lodashGet nflTeamIdToNFLTeamAbbreviation responseData

/-- The `defaultPosition` transform (player.js:106). -/
def Player.defaultPositionParse (responseData : JSVal) : JSVal :=
  lodashGet slotCategoryIdToPositionMap responseData

/-- The `totalPoints` transform (player.js:110-120). -/
def Player.totalPointsParse (responseData : JSVal) (data rawData cParams : JSObj) : JSVal :=
  parsePlayerStats (Player.totalPointsCallArgs responseData data rawData cParams)

/-- The `eligiblePositions` transform (player.js:124-126):
`_.map(responseData, (posId) => _.get(slotCategoryIdToPositionMap, posId))`. -/
def Player.eligiblePositionsParse (responseData : JSVal) : JSVal :=
  lodashMap responseData (fun posId => lodashGet slotCategoryIdToPositionMap posId)

/-- The `acquiredDate` transform (player.js:137):
`responseData ? new Date(responseData) : undefined`. -/
def Player.acquiredDateParse (responseData : JSVal) : JSVal :=
  if truthy responseData then JSVal.date responseData else JSVal.undef

/-- `static responseMap` (player.js:87-146), in declared order. -/
def Player.responseMap : List (String × FieldSpec) :=
  [("id", FieldSpec.direct "id"),
   ("firstName", FieldSpec.direct "firstName"),
   ("fullName", FieldSpec.direct "fullName"),
   ("lastName", FieldSpec.direct "lastName"),
   ("jerseyNumber",
     FieldSpec.spec (some "jersey") (some (fun rd _ _ _ => Player.jerseyNumberParse rd)) none),
   ("proTeam",
     FieldSpec.spec (some "proTeamId") (some (fun rd _ _ _ => Player.proTeamParse rd)) none),
   ("proTeamAbbreviation",
     FieldSpec.spec (some "proTeamId")
       (some (fun rd _ _ _ => Player.proTeamAbbreviationParse rd)) none),
   ("defaultPosition",
     FieldSpec.spec (some "defaultPositionId")
       (some (fun rd _ _ _ => Player.defaultPositionParse rd)) none),
   ("totalPoints", FieldSpec.spec (some "stats") (some Player.totalPointsParse) none),
   ("eligiblePositions",
     FieldSpec.spec (some "eligibleSlots")
       (some (fun rd _ _ _ => Player.eligiblePositionsParse rd)) none),
   ("averageDraftPosition", FieldSpec.direct "averageDraftPosition"),
   ("auctionValueAverage", FieldSpec.direct "auctionValueAverage"),
   ("locked", FieldSpec.direct "lineupLocked"),
   ("percentChange", FieldSpec.direct "percentChange"),
   ("percentStarted", FieldSpec.direct "percentStarted"),
   ("percentOwned", FieldSpec.direct "percentOwned"),
   ("acquiredDate",
     FieldSpec.spec (some "acquisitionDate")
       (some (fun rd _ _ _ => Player.acquiredDateParse rd)) none),
   ("availabilityStatus", FieldSpec.direct "status"),
   ("isDroppable", FieldSpec.direct "droppable"),
   ("isInjured", FieldSpec.direct "injured"),
   ("injuryStatus", FieldSpec.direct "injuryStatus"),
   ("outlooksByWeek", FieldSpec.direct "outlooksByWeek")]

/-- Mapping a raw server document with Player's response map (flatten mode is
on for Player). -/
def Player.mapFromServer (doc cParams : JSObj) : JSObj :=
  mapResponse Player.responseMap doc cParams Player.flattenResponse

/-- The instance state the Player constructor establishes. -/
structure PlayerInstance : Type where
  seasonId : JSVal
  scoringPeriodId : JSVal

/-- The Player constructor (player.js:20-26): stores `options.seasonId` and
`options.scoringPeriodId` on the instance.  The super constructor is
modelled from the spec: the base class treats `options` as caller-owned,
read-only input (§3) and establishes no state this model tracks. -/
def Player.create (options : JSObj) : PlayerInstance :=
  { seasonId := getField options "seasonId"
    scoringPeriodId := getField options "scoringPeriodId" }

/-- Modelled from the spec (§4.4): the process-wide cache store of the
Cacheable Object Base, with an explicit heap so object identity is
observable (`Nat` references) and a counter of Schema Mapper invocations. -/
structure CacheState : Type where
  store : List (JSObj × Nat)
  heap : List JSObj
  mapperCalls : Nat

/-- Modelled from the spec (§4.4 `getOrCreate`, steps 1-4, for the Player
entity type): no key → always map fresh, never touch the store; key with a
hit → return the stored reference unchanged; key with a miss → map, store
under the key, return the new reference. -/
def getOrCreate (st : CacheState) (cParams doc : JSObj) : Nat × CacheState :=
  match Player.getIDParams cParams with
  | none =>
    (st.heap.length,
      ⟨st.store, st.heap ++ [Player.mapFromServer doc cParams], st.mapperCalls + 1⟩)
  | some key =>
    match st.store.find? (fun e => e.1 = key) with
    | some e => (e.2, st)
    | none =>
      (st.heap.length,
        ⟨st.store ++ [(key, st.heap.length)],
          st.heap ++ [Player.mapFromServer doc cParams], st.mapperCalls + 1⟩)

/-! ## Helper lemmas about the object model and the mapper -/

theorem getField_setField_self (o : JSObj) (k : String) (v : JSVal) :
    getField (setField o k v) k = v := by
  induction o with
  | nil => simp [setField, getField]
  | cons kv t ih =>
    by_cases h : kv.1 = k
    · simp [setField, h, getField]
    · simp [setField, h, getField, ih]

theorem hasField_setField_self (o : JSObj) (k : String) (v : JSVal) :
    hasField (setField o k v) k = true := by
  induction o with
  | nil => simp [setField, hasField]
  | cons kv t ih =>
    by_cases h : kv.1 = k
    · simp [setField, h, hasField]
    · simp [setField, h, hasField, ih]

theorem getField_setField_ne (o : JSObj) (k k' : String) (v : JSVal) (h : k ≠ k') :
    getField (setField o k v) k' = getField o k' := by
  induction o with
  | nil => simp [setField, getField, h]
  | cons kv t ih =>
    by_cases hk : kv.1 = k
    · simp [setField, hk, getField, h]
    · simp only [setField, hk, if_false, getField, ih]

theorem hasField_setField_ne (o : JSObj) (k k' : String) (v : JSVal) (h : k ≠ k') :
    hasField (setField o k v) k' = hasField o k' := by
  induction o with
  | nil => simp [setField, hasField, h]
  | cons kv t ih =>
    by_cases hk : kv.1 = k
    · simp [setField, hk, hasField, h]
    · simp only [setField, hk, if_false, hasField, ih]

theorem getField_append (a b : JSObj) (k : String) :
    getField (a ++ b) k = if hasField a k then getField a k else getField b k := by
  induction a with
  | nil => simp [getField, hasField]
  | cons kv t ih =>
    by_cases h : kv.1 = k <;> simp [getField, hasField, h, ih]

theorem mapFields_append (a b : List (String × FieldSpec)) (doc p acc : JSObj) :
    mapFields (a ++ b) doc p acc = mapFields b doc p (mapFields a doc p acc) := by
  induction a generalizing acc with
  | nil => rfl
  | cons e t ih =>
    obtain ⟨n, fs⟩ := e
    simp only [List.cons_append, mapFields]
    cases hr : resolveField n fs doc acc p <;> exact ih _

theorem getField_mapFields_of_not_mem (entries : List (String × FieldSpec)) (doc p acc : JSObj)
    (name : String) (h : name ∉ entries.map Prod.fst) :
    getField (mapFields entries doc p acc) name = getField acc name := by
  induction entries generalizing acc with
  | nil => rfl
  | cons e t ih =>
    obtain ⟨n, fs⟩ := e
    simp only [List.map_cons, List.mem_cons] at h
    push_neg at h
    simp only [mapFields]
    cases hr : resolveField n fs doc acc p
    · exact ih _ h.2
    · rw [ih _ h.2, getField_setField_ne _ _ _ _ (fun e => h.1 e.symm)]

theorem hasField_mapFields_of_not_mem (entries : List (String × FieldSpec)) (doc p acc : JSObj)
    (name : String) (h : name ∉ entries.map Prod.fst) :
    hasField (mapFields entries doc p acc) name = hasField acc name := by
  induction entries generalizing acc with
  | nil => rfl
  | cons e t ih =>
    obtain ⟨n, fs⟩ := e
    simp only [List.map_cons, List.mem_cons] at h
    push_neg at h
    simp only [mapFields]
    cases hr : resolveField n fs doc acc p
    · exact ih _ h.2
    · rw [ih _ h.2, hasField_setField_ne _ _ _ _ (fun e => h.1 e.symm)]

/-- Splitting a mapping run at one entry: the entry's target field in the
final result is exactly what its resolver produced against the partial
result accumulated so far (absent resolutions leave the field absent). -/
theorem mapFields_split (pre post : List (String × FieldSpec)) (name : String) (fs : FieldSpec)
    (doc p : JSObj) (hpre : name ∉ pre.map Prod.fst) (hpost : name ∉ post.map Prod.fst) :
    getField (mapFields (pre ++ (name, fs) :: post) doc p []) name =
      (resolveField name fs doc (mapFields pre doc p []) p).getD JSVal.undef ∧
    hasField (mapFields (pre ++ (name, fs) :: post) doc p []) name =
      (resolveField name fs doc (mapFields pre doc p []) p).isSome := by
  rw [mapFields_append]
  simp only [mapFields]
  cases hr : resolveField name fs doc (mapFields pre doc p []) p
  · constructor
    · rw [getField_mapFields_of_not_mem _ _ _ _ _ hpost,
        getField_mapFields_of_not_mem _ _ _ _ _ hpre]
      rfl
    · rw [hasField_mapFields_of_not_mem _ _ _ _ _ hpost,
        hasField_mapFields_of_not_mem _ _ _ _ _ hpre]
      rfl
  · constructor
    · rw [getField_mapFields_of_not_mem _ _ _ _ _ hpost, getField_setField_self]
      rfl
    · rw [hasField_mapFields_of_not_mem _ _ _ _ _ hpost, hasField_setField_self]
      rfl

/-! ## Claim C1: the identity key of Player.getIDParams -/

/-- C1 counterexample: `id = 0` is present and non-nullish in the parameters
(so the claim demands the ordered key), yet `Player.getIDParams` tests
JavaScript truthiness and returns `undefined`. -/
theorem getIDParams_nonNullish_counterexample :
    nonNullish (getField [("id", JSVal.num 0), ("seasonId", JSVal.num 2023),
      ("scoringPeriodId", JSVal.num 1)] "id") = true ∧
    nonNullish (getField [("id", JSVal.num 0), ("seasonId", JSVal.num 2023),
      ("scoringPeriodId", JSVal.num 1)] "seasonId") = true ∧
    nonNullish (getField [("id", JSVal.num 0), ("seasonId", JSVal.num 2023),
      ("scoringPeriodId", JSVal.num 1)] "scoringPeriodId") = true ∧
    Player.getIDParams [("id", JSVal.num 0), ("seasonId", JSVal.num 2023),
      ("scoringPeriodId", JSVal.num 1)] = none :=
  ⟨rfl, rfl, rfl, rfl⟩

/-- C1 (amended): `Player.getIDParams` returns the key of exactly the three
declared identity parameters in declared order precisely when all three are
truthy (not merely non-nullish) in the parameters; otherwise it returns
`undefined`; and parameter objects agreeing on the three values yield equal
keys. -/
theorem getIDParams_truthy_spec (p : JSObj) :
    (truthy (getField p "id") = true → truthy (getField p "seasonId") = true →
      truthy (getField p "scoringPeriodId") = true →
      Player.getIDParams p = some [("id", getField p "id"),
        ("seasonId", getField p "seasonId"),
        ("scoringPeriodId", getField p "scoringPeriodId")]) ∧
    ((truthy (getField p "id") = false ∨ truthy (getField p "seasonId") = false ∨
        truthy (getField p "scoringPeriodId") = false) →
      Player.getIDParams p = none) ∧
    (∀ q : JSObj, getField p "id" = getField q "id" →
      getField p "seasonId" = getField q "seasonId" →
      getField p "scoringPeriodId" = getField q "scoringPeriodId" →
      Player.getIDParams p = Player.getIDParams q) := by
  refine ⟨fun h1 h2 h3 => ?_, fun h => ?_, fun q h1 h2 h3 => ?_⟩
  · simp [Player.getIDParams, h1, h2, h3]
  · rcases h with h | h | h <;> simp [Player.getIDParams, h]
  · simp [Player.getIDParams, h1, h2, h3]

/-- C1 witness: the amended theorem applied at a complete truthy triple and
at a triple with one parameter withheld. -/
theorem getIDParams_truthy_spec_witness :
    Player.getIDParams [("id", JSVal.num 7), ("seasonId", JSVal.num 2023),
      ("scoringPeriodId", JSVal.num 1)] =
      some [("id", JSVal.num 7), ("seasonId", JSVal.num 2023),
        ("scoringPeriodId", JSVal.num 1)] ∧
    Player.getIDParams [("seasonId", JSVal.num 2023), ("scoringPeriodId", JSVal.num 1)] =
      none :=
  ⟨(getIDParams_truthy_spec _).1 rfl rfl rfl,
   (getIDParams_truthy_spec _).2.1 (Or.inl rfl)⟩

/-! ## Claim C9: the identity key reads nothing but the three identity
parameters -/

/-- C9: two constructor-parameter objects agreeing on the values of `id`,
`seasonId` and `scoringPeriodId` produce equal `Player.getIDParams` results,
however they differ elsewhere. -/
theorem getIDParams_only_identity_params (p q : JSObj)
    (hid : getField p "id" = getField q "id")
    (hs : getField p "seasonId" = getField q "seasonId")
    (hsp : getField p "scoringPeriodId" = getField q "scoringPeriodId") :
    Player.getIDParams p = Player.getIDParams q := by
  simp [Player.getIDParams, hid, hs, hsp]

/-- C9 witness: agreement on the three identity parameters despite a
different declaration order and an unrelated extra parameter. -/
theorem getIDParams_only_identity_params_witness :
    Player.getIDParams [("id", JSVal.num 7), ("seasonId", JSVal.num 2023),
      ("scoringPeriodId", JSVal.num 1), ("extra", JSVal.str "x")] =
    Player.getIDParams [("scoringPeriodId", JSVal.num 1), ("id", JSVal.num 7),
      ("seasonId", JSVal.num 2023)] :=
  getIDParams_only_identity_params _ _ rfl rfl rfl

/-! ## Claim C10: the Player constructor -/

/-- C10: constructing a Player is a total (never-throwing) pure function of
the caller's options object — purity of the embedding is the no-modification
guarantee — and it leaves the instance with `seasonId` and `scoringPeriodId`
equal to `options.seasonId` and `options.scoringPeriodId` (`undefined` when
not supplied, as with the defaulted empty options object). -/
theorem player_create_spec (options : JSObj) :
    (Player.create options).seasonId = getField options "seasonId" ∧
    (Player.create options).scoringPeriodId = getField options "scoringPeriodId" ∧
    (Player.create []).seasonId = JSVal.undef ∧
    (Player.create []).scoringPeriodId = JSVal.undef :=
  ⟨rfl, rfl, rfl, rfl⟩

/-! ## Claim C2: the identity context handed to parsePlayerStats -/

/-- C2 counterexample: a call whose constructorParams carry
`seasonId = 2023`, `scoringPeriodId = 4`, yet the argument object built for
`parsePlayerStats` carries `seasonId = undefined` and
`scoringPeriodId = undefined` — the values bound at schema-definition time
via `this` — not the per-call identity context. -/
theorem totalPoints_context_counterexample :
    (Player.totalPointsCallArgs (JSVal.obj []) [] []
        [("seasonId", JSVal.num 2023), ("scoringPeriodId", JSVal.num 4)]).seasonId ≠
      getField [("seasonId", JSVal.num 2023), ("scoringPeriodId", JSVal.num 4)] "seasonId" ∧
    (Player.totalPointsCallArgs (JSVal.obj []) [] []
        [("seasonId", JSVal.num 2023), ("scoringPeriodId", JSVal.num 4)]).scoringPeriodId ≠
      getField [("seasonId", JSVal.num 2023), ("scoringPeriodId", JSVal.num 4)]
        "scoringPeriodId" ∧
    (Player.totalPointsCallArgs (JSVal.obj []) [] []
        [("seasonId", JSVal.num 2023), ("scoringPeriodId", JSVal.num 4)]).seasonId =
      JSVal.undef :=
  ⟨(fun h => nomatch h), (fun h => nomatch h), rfl⟩

/-- C2 (amended): on every invocation, the `totalPoints` transform calls
`parsePlayerStats` with the raw stat payload and with the per-call
`constructorParams` threaded through as one argument field; but the explicit
`seasonId`/`scoringPeriodId` argument fields are read off the class object
(`this` of the static initializer) — state bound at schema-definition time,
always `undefined` — not taken from the per-call `constructorParams`. -/
theorem totalPoints_call_args_spec (rd : JSVal) (data rawData cParams : JSObj) :
    Player.responseMap.get? 8 =
      some ("totalPoints", FieldSpec.spec (some "stats") (some Player.totalPointsParse) none) ∧
    Player.totalPointsParse rd data rawData cParams =
      parsePlayerStats (Player.totalPointsCallArgs rd data rawData cParams) ∧
    (Player.totalPointsCallArgs rd data rawData cParams).responseData = rd ∧
    (Player.totalPointsCallArgs rd data rawData cParams).constructorParams = cParams ∧
    (Player.totalPointsCallArgs rd data rawData cParams).usesPoints = true ∧
    (Player.totalPointsCallArgs rd data rawData cParams).statKey = "appliedTotal" ∧
    (Player.totalPointsCallArgs rd data rawData cParams).seasonId = Player.staticSeasonId ∧
    (Player.totalPointsCallArgs rd data rawData cParams).scoringPeriodId =
      Player.staticScoringPeriodId ∧
    Player.staticSeasonId = JSVal.undef ∧
    Player.staticScoringPeriodId = JSVal.undef := by
  refine ⟨?_, ?_, ?_, ?_, ?_, ?_, ?_, ?_, ?_, ?_⟩ <;> rfl

/-! ## Further helper lemmas -/

theorem optionOfNonUndef_getD (v : JSVal) :
    (optionOfNonUndef v).getD JSVal.undef = v := by
  cases v <;> rfl

theorem optionOfNonUndef_isSome (v : JSVal) :
    (optionOfNonUndef v).isSome = !(isUndef v) := by
  cases v <;> rfl

theorem getField_eq_undef_of_not_hasField (o : JSObj) (k : String) (h : hasField o k = false) :
    getField o k = JSVal.undef := by
  induction o with
  | nil => rfl
  | cons kv t ih =>
    by_cases hk : kv.1 = k
    · simp [hasField, hk] at h
    · simp only [hasField, hk, if_false] at h
      simp [getField, hk, ih h]

theorem hasField_append (a b : JSObj) (k : String) :
    hasField (a ++ b) k = (hasField a k || hasField b k) := by
  induction a with
  | nil => simp [hasField]
  | cons kv t ih => by_cases h : kv.1 = k <;> simp [hasField, h, ih]

theorem isUndef_lodashToNumber (v : JSVal) : isUndef (lodashToNumber v) = false := by
  cases v with
  | bool b => cases b <;> rfl
  | str s =>
    simp only [lodashToNumber]
    cases strToInt? s with
    | some n => rfl
    | none => by_cases h : s = "" <;> simp [h, isUndef]
  | undef => rfl
  | null => rfl
  | num n => rfl
  | nan => rfl
  | arr l => rfl
  | obj o => rfl
  | date d => rfl

theorem flattenDoc_eq_of_no_children (doc : JSObj) (h : childFields doc = []) :
    flattenDoc doc = doc := by
  simp [flattenDoc, h]

theorem mapFromServer_eq_of_no_children (doc p : JSObj) (h : childFields doc = []) :
    Player.mapFromServer doc p = mapFields Player.responseMap doc p [] := by
  simp [Player.mapFromServer, mapResponse, Player.flattenResponse,
    flattenDoc_eq_of_no_children doc h]

/-! ## Claim C5: the mapping is deterministic -/

/-- C5: mapping the same (response map, document, params) twice yields equal
objects, agreeing field by field.  Purity of every transform is inherent to
the embedding (each is a function of the raw value, the partial result, the
document and the constructor params alone), which is exactly the spec's
"no flattening side effects / pure transforms" assumption. -/
theorem mapFromServer_deterministic (doc p : JSObj) :
    Player.mapFromServer doc p = Player.mapFromServer doc p ∧
    ∀ name : String,
      getField (Player.mapFromServer doc p) name = getField (Player.mapFromServer doc p) name :=
  ⟨rfl, fun _ => rfl⟩

/-! ## Per-field evaluation of the Player mapping (container-free documents,
where flattening is the identity) -/

theorem mapFromServer_id_eval (doc p : JSObj) (h : childFields doc = []) :
    getField (Player.mapFromServer doc p) "id" =
      (if hasField doc "id" = true then getField doc "id" else JSVal.undef) ∧
    hasField (Player.mapFromServer doc p) "id" = hasField doc "id" := by
  have hs := mapFields_split (Player.responseMap.take 0) (Player.responseMap.drop 1) "id"
    (FieldSpec.direct "id") doc p (by decide) (by decide)
  have e : Player.responseMap.take 0 ++ ("id", FieldSpec.direct "id") ::
      Player.responseMap.drop 1 = Player.responseMap := rfl
  rw [e] at hs
  rw [mapFromServer_eq_of_no_children doc p h]
  refine ⟨?_, ?_⟩
  · rw [hs.1]
    by_cases hid : hasField doc "id" = true <;> simp [resolveField, hid]
  · rw [hs.2]
    by_cases hid : hasField doc "id" = true <;> simp [resolveField, hid]

theorem mapFromServer_proTeam_eval (doc p : JSObj) (h : childFields doc = []) :
    getField (Player.mapFromServer doc p) "proTeam" =
      Player.proTeamParse (getField doc "proTeamId") ∧
    hasField (Player.mapFromServer doc p) "proTeam" =
      !(isUndef (Player.proTeamParse (getField doc "proTeamId"))) := by
  have hs := mapFields_split (Player.responseMap.take 5) (Player.responseMap.drop 6) "proTeam"
    (FieldSpec.spec (some "proTeamId") (some (fun rd _ _ _ => Player.proTeamParse rd)) none)
    doc p (by decide) (by decide)
  have e : Player.responseMap.take 5 ++
      ("proTeam", FieldSpec.spec (some "proTeamId")
        (some (fun rd _ _ _ => Player.proTeamParse rd)) none) ::
      Player.responseMap.drop 6 = Player.responseMap := rfl
  rw [e] at hs
  rw [mapFromServer_eq_of_no_children doc p h]
  exact ⟨by rw [hs.1]; exact optionOfNonUndef_getD _,
    by rw [hs.2]; exact optionOfNonUndef_isSome _⟩

theorem mapFromServer_jerseyNumber_eval (doc p : JSObj) (h : childFields doc = []) :
    getField (Player.mapFromServer doc p) "jerseyNumber" =
      Player.jerseyNumberParse (getField doc "jersey") ∧
    hasField (Player.mapFromServer doc p) "jerseyNumber" =
      !(isUndef (Player.jerseyNumberParse (getField doc "jersey"))) := by
  have hs := mapFields_split (Player.responseMap.take 4) (Player.responseMap.drop 5)
    "jerseyNumber"
    (FieldSpec.spec (some "jersey") (some (fun rd _ _ _ => Player.jerseyNumberParse rd)) none)
    doc p (by decide) (by decide)
  have e : Player.responseMap.take 4 ++
      ("jerseyNumber", FieldSpec.spec (some "jersey")
        (some (fun rd _ _ _ => Player.jerseyNumberParse rd)) none) ::
      Player.responseMap.drop 5 = Player.responseMap := rfl
  rw [e] at hs
  rw [mapFromServer_eq_of_no_children doc p h]
  exact ⟨by rw [hs.1]; exact optionOfNonUndef_getD _,
    by rw [hs.2]; exact optionOfNonUndef_isSome _⟩

theorem mapFromServer_eligiblePositions_eval (doc p : JSObj) (h : childFields doc = []) :
    getField (Player.mapFromServer doc p) "eligiblePositions" =
      Player.eligiblePositionsParse (getField doc "eligibleSlots") ∧
    hasField (Player.mapFromServer doc p) "eligiblePositions" =
      !(isUndef (Player.eligiblePositionsParse (getField doc "eligibleSlots"))) := by
  have hs := mapFields_split (Player.responseMap.take 9) (Player.responseMap.drop 10)
    "eligiblePositions"
    (FieldSpec.spec (some "eligibleSlots")
      (some (fun rd _ _ _ => Player.eligiblePositionsParse rd)) none)
    doc p (by decide) (by decide)
  have e : Player.responseMap.take 9 ++
      ("eligiblePositions", FieldSpec.spec (some "eligibleSlots")
        (some (fun rd _ _ _ => Player.eligiblePositionsParse rd)) none) ::
      Player.responseMap.drop 10 = Player.responseMap := rfl
  rw [e] at hs
  rw [mapFromServer_eq_of_no_children doc p h]
  exact ⟨by rw [hs.1]; exact optionOfNonUndef_getD _,
    by rw [hs.2]; exact optionOfNonUndef_isSome _⟩

/-! ## Claim C3: id is copied directly, proTeam is a table lookup -/

/-- C3: on documents without nested containers (so flatten mode is the
identity and "raw field" is unambiguous), mapping with Player's response
map copies the raw `id` field directly, sets `proTeam` to the team-table
lookup of the raw `proTeamId` value (the transform is invoked with the raw
value, which is `undefined` when `proTeamId` is absent), and when the lookup
yields nothing `proTeam` is omitted — reading it gives `undefined` — while
`id` is still mapped. -/
theorem player_map_id_and_proTeam (doc p : JSObj) (h : childFields doc = []) :
    (hasField doc "id" = true →
      hasField (Player.mapFromServer doc p) "id" = true ∧
      getField (Player.mapFromServer doc p) "id" = getField doc "id") ∧
    getField (Player.mapFromServer doc p) "proTeam" =
      Player.proTeamParse (getField doc "proTeamId") ∧
    (hasField doc "proTeamId" = false →
      hasField (Player.mapFromServer doc p) "proTeam" = false ∧
      getField (Player.mapFromServer doc p) "proTeam" = JSVal.undef) := by
  obtain ⟨hg, hh⟩ := mapFromServer_id_eval doc p h
  obtain ⟨pg, ph⟩ := mapFromServer_proTeam_eval doc p h
  refine ⟨fun hid => ⟨?_, ?_⟩, pg, fun hpt => ⟨?_, ?_⟩⟩
  · rw [hh, hid]
  · rw [hg, if_pos hid]
  · rw [ph, getField_eq_undef_of_not_hasField doc "proTeamId" hpt]
    rfl
  · rw [pg, getField_eq_undef_of_not_hasField doc "proTeamId" hpt]
    rfl

/-- C3 witness: the spec's two concrete scenarios — `{id: 7, proTeamId: 3}`
maps to `id = 7`, `proTeam = 'Example Team'`; `{id: 7}` maps to `id = 7`
with `proTeam` omitted. -/
theorem player_map_id_and_proTeam_witness :
    getField (Player.mapFromServer [("id", JSVal.num 7), ("proTeamId", JSVal.num 3)] [])
      "proTeam" = JSVal.str "Example Team" ∧
    getField (Player.mapFromServer [("id", JSVal.num 7), ("proTeamId", JSVal.num 3)] [])
      "id" = JSVal.num 7 ∧
    hasField (Player.mapFromServer [("id", JSVal.num 7)] []) "proTeam" = false ∧
    getField (Player.mapFromServer [("id", JSVal.num 7)] []) "id" = JSVal.num 7 :=
  ⟨(player_map_id_and_proTeam [("id", JSVal.num 7), ("proTeamId", JSVal.num 3)]
      [] rfl).2.1.trans rfl,
   ((player_map_id_and_proTeam [("id", JSVal.num 7), ("proTeamId", JSVal.num 3)] [] rfl).1
     rfl).2.trans rfl,
   ((player_map_id_and_proTeam [("id", JSVal.num 7)] [] rfl).2.2 rfl).1,
   ((player_map_id_and_proTeam [("id", JSVal.num 7)] [] rfl).1 rfl).2.trans rfl⟩

/-! ## Claim C6: the jerseyNumber transform -/

/-- C6 counterexample: `jersey = 0` is present in the raw document and its
numeric conversion is `0`, yet the transform — a truthiness test — returns
`undefined`. -/
theorem jerseyNumber_present_counterexample :
    hasField [("jersey", JSVal.num 0)] "jersey" = true ∧
    lodashToNumber (getField [("jersey", JSVal.num 0)] "jersey") = JSVal.num 0 ∧
    Player.jerseyNumberParse (getField [("jersey", JSVal.num 0)] "jersey") = JSVal.undef :=
  ⟨rfl, rfl, rfl⟩

/-- C6 (amended): the jerseyNumber transform, applied to the raw `jersey`
value, returns the numeric conversion of that value when the value is truthy
and `undefined` (so the field is omitted) when the value is absent or falsy;
it is a total function, so a missing value never throws. -/
theorem jerseyNumber_truthy_spec (doc p : JSObj) (h : childFields doc = []) :
    (truthy (getField doc "jersey") = true →
      hasField (Player.mapFromServer doc p) "jerseyNumber" = true ∧
      getField (Player.mapFromServer doc p) "jerseyNumber" =
        lodashToNumber (getField doc "jersey")) ∧
    (hasField doc "jersey" = false →
      hasField (Player.mapFromServer doc p) "jerseyNumber" = false ∧
      getField (Player.mapFromServer doc p) "jerseyNumber" = JSVal.undef) ∧
    (∀ v : JSVal, Player.jerseyNumberParse v =
      if truthy v = true then lodashToNumber v else JSVal.undef) := by
  obtain ⟨jg, jh⟩ := mapFromServer_jerseyNumber_eval doc p h
  refine ⟨fun ht => ⟨?_, ?_⟩, fun habs => ⟨?_, ?_⟩, fun v => rfl⟩
  · rw [jh]
    simp [Player.jerseyNumberParse, ht, isUndef_lodashToNumber]
  · rw [jg]
    simp [Player.jerseyNumberParse, ht]
  · rw [jh, getField_eq_undef_of_not_hasField doc "jersey" habs]
    rfl
  · rw [jg, getField_eq_undef_of_not_hasField doc "jersey" habs]
    rfl

/-- C6 witness: `jersey = "12"` maps to the number 12; a document without
`jersey` leaves `jerseyNumber` omitted. -/
theorem jerseyNumber_truthy_spec_witness :
    getField (Player.mapFromServer [("jersey", JSVal.str "12")] []) "jerseyNumber" =
      JSVal.num 12 ∧
    hasField (Player.mapFromServer [("fullName", JSVal.str "A")] []) "jerseyNumber" = false :=
  ⟨((jerseyNumber_truthy_spec [("jersey", JSVal.str "12")] [] rfl).1 rfl).2.trans rfl,
   ((jerseyNumber_truthy_spec [("fullName", JSVal.str "A")] [] rfl).2.1 rfl).1⟩

/-! ## Claim C8: eligiblePositions -/

/-- C8: when `eligibleSlots` is absent, `eligiblePositions` is present and
equal to the empty list (not omitted); when `eligibleSlots` is a list,
`eligiblePositions` is the list of position-table lookups of its elements,
in order and of the same length. -/
theorem eligiblePositions_map_spec (doc p : JSObj) (h : childFields doc = []) :
    (hasField doc "eligibleSlots" = false →
      hasField (Player.mapFromServer doc p) "eligiblePositions" = true ∧
      getField (Player.mapFromServer doc p) "eligiblePositions" = JSVal.arr []) ∧
    (∀ l : List JSVal, getField doc "eligibleSlots" = JSVal.arr l →
      getField (Player.mapFromServer doc p) "eligiblePositions" =
        JSVal.arr (l.map (fun posId => lodashGet slotCategoryIdToPositionMap posId)) ∧
      (l.map (fun posId => lodashGet slotCategoryIdToPositionMap posId)).length =
        l.length) := by
  obtain ⟨eg, eh⟩ := mapFromServer_eligiblePositions_eval doc p h
  refine ⟨fun habs => ⟨?_, ?_⟩, fun l hl => ⟨?_, ?_⟩⟩
  · rw [eh, getField_eq_undef_of_not_hasField doc "eligibleSlots" habs]
    rfl
  · rw [eg, getField_eq_undef_of_not_hasField doc "eligibleSlots" habs]
    rfl
  · rw [eg, hl]
    rfl
  · simp

/-- C8 witness: slots `[0, 2]` map to `["QB", "RB"]`; a document without
`eligibleSlots` yields a present, empty `eligiblePositions`. -/
theorem eligiblePositions_map_spec_witness :
    getField (Player.mapFromServer [("eligibleSlots",
        JSVal.arr [JSVal.num 0, JSVal.num 2])] []) "eligiblePositions" =
      JSVal.arr [JSVal.str "QB", JSVal.str "RB"] ∧
    hasField (Player.mapFromServer [("id", JSVal.num 7)] []) "eligiblePositions" = true ∧
    getField (Player.mapFromServer [("id", JSVal.num 7)] []) "eligiblePositions" =
      JSVal.arr [] :=
  ⟨(((eligiblePositions_map_spec [("eligibleSlots", JSVal.arr [JSVal.num 0, JSVal.num 2])]
      [] rfl).2 [JSVal.num 0, JSVal.num 2] rfl).1).trans rfl,
   ((eligiblePositions_map_spec [("id", JSVal.num 7)] [] rfl).1 rfl).1,
   ((eligiblePositions_map_spec [("id", JSVal.num 7)] [] rfl).1 rfl).2⟩

/-! ## Claim C4: identity-keyed caching -/

/-- C4: when two construction requests produce the same identity key, the
second request returns the very reference the first produced and leaves the
cache state — in particular the mapper-invocation counter — untouched (no
second Schema Mapper run, even with a divergent raw document); and a request
withholding any one of `id`/`seasonId`/`scoringPeriodId` derives no key, so
it is constructed fresh: a new reference from one more mapper run, with the
store untouched. -/
theorem getOrCreate_cache_spec (st : CacheState) (p1 p2 doc1 doc2 : JSObj) (k : JSObj)
    (h1 : Player.getIDParams p1 = some k) (h2 : Player.getIDParams p2 = some k) :
    (getOrCreate (getOrCreate st p1 doc1).2 p2 doc2).1 = (getOrCreate st p1 doc1).1 ∧
    (getOrCreate (getOrCreate st p1 doc1).2 p2 doc2).2 = (getOrCreate st p1 doc1).2 ∧
    (getOrCreate (getOrCreate st p1 doc1).2 p2 doc2).2.mapperCalls =
      (getOrCreate st p1 doc1).2.mapperCalls ∧
    (∀ q doc : JSObj,
      (hasField q "id" = false ∨ hasField q "seasonId" = false ∨
        hasField q "scoringPeriodId" = false) →
      Player.getIDParams q = none ∧
      (getOrCreate st q doc).2.store = st.store ∧
      (getOrCreate st q doc).1 = st.heap.length ∧
      (getOrCreate st q doc).2.heap = st.heap ++ [Player.mapFromServer doc q] ∧
      (getOrCreate st q doc).2.mapperCalls = st.mapperCalls + 1) := by
  have fresh : ∀ q doc : JSObj,
      (hasField q "id" = false ∨ hasField q "seasonId" = false ∨
        hasField q "scoringPeriodId" = false) →
      Player.getIDParams q = none ∧
      (getOrCreate st q doc).2.store = st.store ∧
      (getOrCreate st q doc).1 = st.heap.length ∧
      (getOrCreate st q doc).2.heap = st.heap ++ [Player.mapFromServer doc q] ∧
      (getOrCreate st q doc).2.mapperCalls = st.mapperCalls + 1 := by
    intro q doc hq
    have hnone : Player.getIDParams q = none := by
      rcases hq with hq | hq | hq <;>
        simp [Player.getIDParams, getField_eq_undef_of_not_hasField _ _ hq, truthy]
    refine ⟨hnone, ?_, ?_, ?_, ?_⟩ <;> simp [getOrCreate, hnone]
  refine ⟨?_, ?_, ?_, fresh⟩ <;>
  · cases hf : st.store.find? (fun e => e.1 = k) with
    | some e => simp [getOrCreate, h1, h2, hf]
    | none =>
      have hfind2 : (st.store ++ [(k, st.heap.length)]).find? (fun e => e.1 = k) =
          some (k, st.heap.length) := by
        rw [List.find?_append, hf, Option.none_or]
        exact List.find?_cons_of_pos _ (by simp)
      simp [getOrCreate, h1, h2, hf, hfind2]

/-- C4 witness: the same identity triple constructed twice — even against a
divergent second document — returns the first reference with an unchanged
mapper count; withholding `scoringPeriodId` constructs fresh. -/
theorem getOrCreate_cache_spec_witness :
    (getOrCreate
        (getOrCreate ⟨[], [], 0⟩
          [("id", JSVal.num 7), ("seasonId", JSVal.num 2023),
            ("scoringPeriodId", JSVal.num 1)] [("fullName", JSVal.str "A")]).2
        [("id", JSVal.num 7), ("seasonId", JSVal.num 2023),
          ("scoringPeriodId", JSVal.num 1)] [("fullName", JSVal.str "B")]).1 =
      (getOrCreate ⟨[], [], 0⟩
        [("id", JSVal.num 7), ("seasonId", JSVal.num 2023),
          ("scoringPeriodId", JSVal.num 1)] [("fullName", JSVal.str "A")]).1 ∧
    (getOrCreate
        (getOrCreate ⟨[], [], 0⟩
          [("id", JSVal.num 7), ("seasonId", JSVal.num 2023),
            ("scoringPeriodId", JSVal.num 1)] [("fullName", JSVal.str "A")]).2
        [("id", JSVal.num 7), ("seasonId", JSVal.num 2023),
          ("scoringPeriodId", JSVal.num 1)] [("fullName", JSVal.str "B")]).2.mapperCalls =
      (getOrCreate ⟨[], [], 0⟩
        [("id", JSVal.num 7), ("seasonId", JSVal.num 2023),
          ("scoringPeriodId", JSVal.num 1)] [("fullName", JSVal.str "A")]).2.mapperCalls ∧
    (getOrCreate ⟨[], [], 0⟩
      [("id", JSVal.num 7), ("seasonId", JSVal.num 2023)] []).2.store = [] := by
  have h := getOrCreate_cache_spec ⟨[], [], 0⟩
    [("id", JSVal.num 7), ("seasonId", JSVal.num 2023), ("scoringPeriodId", JSVal.num 1)]
    [("id", JSVal.num 7), ("seasonId", JSVal.num 2023), ("scoringPeriodId", JSVal.num 1)]
    [("fullName", JSVal.str "A")] [("fullName", JSVal.str "B")]
    [("id", JSVal.num 7), ("seasonId", JSVal.num 2023), ("scoringPeriodId", JSVal.num 1)]
    rfl rfl
  exact ⟨h.1, h.2.2.1,
    (h.2.2.2 [("id", JSVal.num 7), ("seasonId", JSVal.num 2023)] []
      (Or.inr (Or.inr rfl))).2.1⟩

/-! ## Claim C7: flatten mode -/

theorem childFields_cons (kv : String × JSVal) (t : JSObj) :
    childFields (kv :: t) =
      (match kv.2 with
       | JSVal.obj fields => fields ++ childFields t
       | _ => childFields t) := rfl

theorem childFields_append (a b : JSObj) :
    childFields (a ++ b) = childFields a ++ childFields b := by
  induction a with
  | nil => rfl
  | cons kv t ih =>
    rw [List.cons_append, childFields_cons, childFields_cons]
    cases h : kv.2 <;> simp [ih]

/-- C7: Player declares flatten mode, and merging a nested container's
fields to top level and then mapping a field whose source key matches a name
inside the container yields the same value as directly reading that nested
value without flattening.  The hypotheses pin down the conflict-free reading
the spec describes: the key is not itself a top-level field and no container
to the left of `c` supplies it. -/
theorem player_flatten_nested_read (pre post inner : JSObj) (c k n : String) (p : JSObj)
    (htop : hasField (pre ++ (c, JSVal.obj inner) :: post) k = false)
    (hpre : hasField (childFields pre) k = false)
    (hk : hasField inner k = true) :
    Player.flattenResponse = true ∧
    getField (flattenDoc (pre ++ (c, JSVal.obj inner) :: post)) k = getField inner k ∧
    getField (mapResponse [(n, FieldSpec.direct k)] (pre ++ (c, JSVal.obj inner) :: post) p
      true) n = getField inner k := by
  have hcf : childFields (pre ++ (c, JSVal.obj inner) :: post) =
      childFields pre ++ (inner ++ childFields post) := by
    rw [childFields_append]
    rfl
  have hget : getField (flattenDoc (pre ++ (c, JSVal.obj inner) :: post)) k =
      getField inner k := by
    rw [flattenDoc, getField_append, htop, if_neg Bool.false_ne_true, hcf, getField_append,
      hpre, if_neg Bool.false_ne_true, getField_append, hk, if_pos rfl]
  have hhas : hasField (flattenDoc (pre ++ (c, JSVal.obj inner) :: post)) k = true := by
    rw [flattenDoc, hasField_append, hcf]
    simp [hasField_append, hk]
  refine ⟨rfl, hget, ?_⟩
  rw [show mapResponse [(n, FieldSpec.direct k)] (pre ++ (c, JSVal.obj inner) :: post) p
        true =
      mapFields [(n, FieldSpec.direct k)]
        (flattenDoc (pre ++ (c, JSVal.obj inner) :: post)) p [] from rfl]
  simp only [mapFields, resolveField, hhas, if_pos]
  rw [getField_setField_self]
  exact hget

/-- C7 witness: a document `{fullName: "A", player: {jersey: "12"}}` — after
flattening, reading `jersey` through a mapped field equals reading it inside
the `player` container directly. -/
theorem player_flatten_nested_read_witness :
    Player.flattenResponse = true ∧
    getField (flattenDoc [("fullName", JSVal.str "A"),
        ("player", JSVal.obj [("jersey", JSVal.str "12")])]) "jersey" =
      getField [("jersey", JSVal.str "12")] "jersey" ∧
    getField (mapResponse [("jerseyNumber", FieldSpec.direct "jersey")]
        [("fullName", JSVal.str "A"), ("player", JSVal.obj [("jersey", JSVal.str "12")])]
        [] true) "jerseyNumber" = getField [("jersey", JSVal.str "12")] "jersey" :=
  player_flatten_nested_read [("fullName", JSVal.str "A")] [] [("jersey", JSVal.str "12")]
    "player" "jersey" "jerseyNumber" [] rfl rfl rfl
